import Mathlib

/-!
Shallow embedding of the Nixie-clock firmware (src/Arduino/nixie.ino) and
proofs of its specified properties.

Conventions:
- C `int` arithmetic is embedded as `Int`; C division/modulo truncate toward
  zero, which is `Int.tdiv` / `Int.tmod`.
- The RTC register transfer is modelled as a pure 7-byte block (`List Nat`,
  one entry per register address 0x00..0x06); register index 3 is skipped by
  both the write loop and the read loop of the source, so entry 3 is inert.
- Hardware side effects (SPI transfers, pin writes, delays) are erased; the
  data written to / decided by them is kept.
-/

namespace NixieClock

/-! ### Constants from the source (nixie.ino, top of file) -/

def minBrightness : Int := 50
def maxBrightness : Int := 100
def ldrDark : Int := 80
def ldrBright : Int := 830
def switchInterval : Int := 5

def MODE_DISPLAY_TIME : Int := 0
def MODE_DISPLAY_DATETIME : Int := 1
def MODE_SET : Int := 2

/-- A 3-entry C `int` array, as used for `time`, `prevTime`, `date` and the
display triples.  Index constants of the source: `hours=0, minutes=1,
seconds=2` and `day=0, month=1, year=2`. -/
structure Arr3 where
  a0 : Int
  a1 : Int
  a2 : Int
deriving DecidableEq, Repr

def Arr3.hours (t : Arr3) : Int := t.a0
def Arr3.minutes (t : Arr3) : Int := t.a1
def Arr3.seconds (t : Arr3) : Int := t.a2
def Arr3.day (d : Arr3) : Int := d.a0
def Arr3.month (d : Arr3) : Int := d.a1
def Arr3.year (d : Arr3) : Int := d.a2

/-! ### RTC Protocol Adapter (`setDateTime`, `readDateTime`)

The values handled by both loops are non-negative (decoded bytes and valid
field values), so the register arithmetic is embedded over `Nat`. -/

/-- The six date/time fields carried by the 7-register block. -/
structure DateTimeVal where
  seconds : Nat
  minutes : Nat
  hours   : Nat
  day     : Nat
  month   : Nat
  year    : Nat
deriving DecidableEq, Repr

/-- Encoding of one register, from the body of `setDateTime`:
`b = v / 10; a = v - b*10;` then for the hours register (`i == 2`) the tens
digit is re-coded (`2 -> B00000010`, `1 -> B00000001`, both numerically the
identity), and the byte is `a + (b << 4)`. -/
def encodeReg (i : Nat) (v : Nat) : Nat :=
  let b := v / 10
  let a := v - b * 10
  let b := if i = 2 then (if b = 2 then 2 else if b = 1 then 1 else b) else b
  a + b * 16

/-- The 7-byte register block written by `setDateTime`.  The source builds
`TimeDate = {sec, min, hr, 0, day, month, year}` and the write loop visits
`i = 0,1,2,4,5,6` (index 3 is skipped by `if(i == 3) i++`), so entry 3 keeps
its initial value 0 and is never transferred. -/
def encodeBlock (dt : DateTimeVal) : List Nat :=
  [encodeReg 0 dt.seconds, encodeReg 1 dt.minutes, encodeReg 2 dt.hours, 0,
   encodeReg 4 dt.day, encodeReg 5 dt.month, encodeReg 6 dt.year]

/-- Decoding of one register, from the body of `readDateTime`:
`a = n & 0x0F`, then the tens bits are masked per register —
hours (`i==2`): `(n & 0x30) >> 4` re-coded `2 -> 20, 1 -> 10`, added directly;
day (`i==4`): `(n & 0x30) >> 4`, times 10;
month (`i==5`): `(n & 0x10) >> 4`, times 10;
year (`i==6`): `(n & 0xF0) >> 4`, times 10;
seconds/minutes (default): `(n & 0x70) >> 4`, times 10. -/
def decodeReg (i : Nat) (n : Nat) : Nat :=
  let a := n % 16
  if i = 2 then
    let b := (n / 16) % 4
    let b := if b = 2 then 20 else if b = 1 then 10 else b
    a + b
  else if i = 4 then a + ((n / 16) % 4) * 10
  else if i = 5 then a + ((n / 16) % 2) * 10
  else if i = 6 then a + ((n / 16) % 16) * 10
  else a + ((n / 16) % 8) * 10

/-- `readDateTime`: decodes registers 0,1,2,4,5,6 of the block (the read loop
skips index 3 via `if(i == 3) i = 4`) and assigns
`date = {TimeDate[4], TimeDate[5], TimeDate[6]}`,
`time = {TimeDate[2], TimeDate[1], TimeDate[0]}`. -/
def readDateTime (regs : List Nat) : DateTimeVal :=
  { seconds := decodeReg 0 (regs.getD 0 0)
    minutes := decodeReg 1 (regs.getD 1 0)
    hours   := decodeReg 2 (regs.getD 2 0)
    day     := decodeReg 4 (regs.getD 4 0)
    month   := decodeReg 5 (regs.getD 5 0)
    year    := decodeReg 6 (regs.getD 6 0) }

lemma decode_encode_seconds : ∀ v : Nat, v < 60 → decodeReg 0 (encodeReg 0 v) = v := by
  decide

lemma decode_encode_minutes : ∀ v : Nat, v < 60 → decodeReg 1 (encodeReg 1 v) = v := by
  decide

lemma decode_encode_hours : ∀ v : Nat, v < 24 → decodeReg 2 (encodeReg 2 v) = v := by
  decide

lemma decode_encode_day : ∀ v : Nat, v < 32 → decodeReg 4 (encodeReg 4 v) = v := by
  decide

lemma decode_encode_month : ∀ v : Nat, v < 13 → decodeReg 5 (encodeReg 5 v) = v := by
  decide

lemma decode_encode_year : ∀ v : Nat, v < 100 → decodeReg 6 (encodeReg 6 v) = v := by
  decide

/-- C1: RTC register encode then decode is the identity: for every tuple with
seconds 0-59, minutes 0-59, hours 0-23, day 1-31, month 1-12, year 0-99,
packing it into the 7-register byte block with `setDateTime`'s encoding (BCD,
ones in the low nibble, tens in the high nibble, hours tens as the 2-bit code
00->0 / 01->10 / 10->20, minutes/seconds tens in 3 bits, day tens in 2 bits,
month tens in 1 bit, year tens in 4 bits, register index 3 skipped) and then
decoding the block with `readDateTime` yields the original tuple. -/
theorem rtc_encode_decode_id (dt : DateTimeVal)
    (hs : dt.seconds ≤ 59) (hm : dt.minutes ≤ 59) (hh : dt.hours ≤ 23)
    (hd1 : 1 ≤ dt.day) (hd : dt.day ≤ 31)
    (hmo1 : 1 ≤ dt.month) (hmo : dt.month ≤ 12) (hy : dt.year ≤ 99) :
    readDateTime (encodeBlock dt) = dt := by
  obtain ⟨s, m, h, d, mo, y⟩ := dt
  replace hs : s ≤ 59 := hs
  replace hm : m ≤ 59 := hm
  replace hh : h ≤ 23 := hh
  replace hd : d ≤ 31 := hd
  replace hmo : mo ≤ 12 := hmo
  replace hy : y ≤ 99 := hy
  have hblock : readDateTime (encodeBlock ⟨s, m, h, d, mo, y⟩) =
      ⟨decodeReg 0 (encodeReg 0 s), decodeReg 1 (encodeReg 1 m),
       decodeReg 2 (encodeReg 2 h), decodeReg 4 (encodeReg 4 d),
       decodeReg 5 (encodeReg 5 mo), decodeReg 6 (encodeReg 6 y)⟩ := rfl
  rw [hblock]
  simp only [DateTimeVal.mk.injEq]
  refine ⟨decode_encode_seconds s (by omega), decode_encode_minutes m (by omega),
    decode_encode_hours h (by omega), decode_encode_day d (by omega),
    decode_encode_month mo (by omega), decode_encode_year y (by omega)⟩

/-- Witness for C1 at the concrete tuple 23:59:58 on day 31, month 12, year 99. -/
theorem rtc_encode_decode_id_witness :
    readDateTime (encodeBlock ⟨58, 59, 23, 31, 12, 99⟩) = ⟨58, 59, 23, 31, 12, 99⟩ :=
  rtc_encode_decode_id ⟨58, 59, 23, 31, 12, 99⟩ (by decide) (by decide) (by decide)
    (by decide) (by decide) (by decide) (by decide) (by decide)

/-! ### Field-wrapping helpers (`restrictTime`, `restrictDate`, `restrictAlarm`) -/

/-- `restrictTime`: each of hours/minutes/seconds is reset to the range
minimum when above the maximum and to the range maximum when below the
minimum, field by field in source order. -/
def restrictTime (t : Arr3) : Arr3 :=
  let t := if t.a0 > 23 then { t with a0 := 0 } else if t.a0 < 0 then { t with a0 := 23 } else t
  let t := if t.a1 > 59 then { t with a1 := 0 } else if t.a1 < 0 then { t with a1 := 59 } else t
  if t.a2 > 59 then { t with a2 := 0 } else if t.a2 < 0 then { t with a2 := 59 } else t

/-- `restrictDate`: day wraps over 1-31, month over 1-12, year over 0-99. -/
def restrictDate (d : Arr3) : Arr3 :=
  let d := if d.a0 > 31 then { d with a0 := 1 } else if d.a0 < 1 then { d with a0 := 31 } else d
  let d := if d.a1 > 12 then { d with a1 := 1 } else if d.a1 < 1 then { d with a1 := 12 } else d
  if d.a2 > 99 then { d with a2 := 0 } else if d.a2 < 0 then { d with a2 := 99 } else d

/-- A 2-entry alarm time array `{hours, minutes}`. -/
structure AlarmTime where
  hours : Int
  minutes : Int
deriving DecidableEq, Repr

/-- `restrictAlarm`: hours wrap over 0-23, minutes over 0-59. -/
def restrictAlarm (a : AlarmTime) : AlarmTime :=
  let a := if a.hours > 23 then { a with hours := 0 }
    else if a.hours < 0 then { a with hours := 23 } else a
  if a.minutes > 59 then { a with minutes := 0 }
  else if a.minutes < 0 then { a with minutes := 59 } else a

lemma restrictTime_a0 (t : Arr3) : (restrictTime t).a0 =
    if t.a0 > 23 then 0 else if t.a0 < 0 then 23 else t.a0 := by
  obtain ⟨t0, t1, t2⟩ := t
  simp only [restrictTime]
  split_ifs <;> simp_all

lemma restrictTime_a1 (t : Arr3) : (restrictTime t).a1 =
    if t.a1 > 59 then 0 else if t.a1 < 0 then 59 else t.a1 := by
  obtain ⟨t0, t1, t2⟩ := t
  simp only [restrictTime]
  split_ifs <;> simp_all

lemma restrictTime_a2 (t : Arr3) : (restrictTime t).a2 =
    if t.a2 > 59 then 0 else if t.a2 < 0 then 59 else t.a2 := by
  obtain ⟨t0, t1, t2⟩ := t
  simp only [restrictTime]
  split_ifs <;> simp_all

lemma restrictDate_a0 (d : Arr3) : (restrictDate d).a0 =
    if d.a0 > 31 then 1 else if d.a0 < 1 then 31 else d.a0 := by
  obtain ⟨d0, d1, d2⟩ := d
  simp only [restrictDate]
  split_ifs <;> simp_all

lemma restrictDate_a1 (d : Arr3) : (restrictDate d).a1 =
    if d.a1 > 12 then 1 else if d.a1 < 1 then 12 else d.a1 := by
  obtain ⟨d0, d1, d2⟩ := d
  simp only [restrictDate]
  split_ifs <;> simp_all

lemma restrictDate_a2 (d : Arr3) : (restrictDate d).a2 =
    if d.a2 > 99 then 0 else if d.a2 < 0 then 99 else d.a2 := by
  obtain ⟨d0, d1, d2⟩ := d
  simp only [restrictDate]
  split_ifs <;> simp_all

lemma restrictAlarm_hours (a : AlarmTime) : (restrictAlarm a).hours =
    if a.hours > 23 then 0 else if a.hours < 0 then 23 else a.hours := by
  obtain ⟨ah, am⟩ := a
  simp only [restrictAlarm]
  split_ifs <;> simp_all

lemma restrictAlarm_minutes (a : AlarmTime) : (restrictAlarm a).minutes =
    if a.minutes > 59 then 0 else if a.minutes < 0 then 59 else a.minutes := by
  obtain ⟨ah, am⟩ := a
  simp only [restrictAlarm]
  split_ifs <;> simp_all

/-- C3: `restrictTime`, `restrictDate` and `restrictAlarm` wrap rather than
clamp: any field value above the field maximum resets to the field minimum,
any value below the field minimum resets to the field maximum, and in-range
values are unchanged — for hours 0-23, minutes/seconds 0-59, day 1-31,
month 1-12, year 0-99, each field independently. -/
theorem restrict_wrap_spec (t d : Arr3) (a : AlarmTime) :
    ((t.a0 > 23 → (restrictTime t).a0 = 0) ∧ (t.a0 < 0 → (restrictTime t).a0 = 23) ∧
      (0 ≤ t.a0 → t.a0 ≤ 23 → (restrictTime t).a0 = t.a0)) ∧
    ((t.a1 > 59 → (restrictTime t).a1 = 0) ∧ (t.a1 < 0 → (restrictTime t).a1 = 59) ∧
      (0 ≤ t.a1 → t.a1 ≤ 59 → (restrictTime t).a1 = t.a1)) ∧
    ((t.a2 > 59 → (restrictTime t).a2 = 0) ∧ (t.a2 < 0 → (restrictTime t).a2 = 59) ∧
      (0 ≤ t.a2 → t.a2 ≤ 59 → (restrictTime t).a2 = t.a2)) ∧
    ((d.a0 > 31 → (restrictDate d).a0 = 1) ∧ (d.a0 < 1 → (restrictDate d).a0 = 31) ∧
      (1 ≤ d.a0 → d.a0 ≤ 31 → (restrictDate d).a0 = d.a0)) ∧
    ((d.a1 > 12 → (restrictDate d).a1 = 1) ∧ (d.a1 < 1 → (restrictDate d).a1 = 12) ∧
      (1 ≤ d.a1 → d.a1 ≤ 12 → (restrictDate d).a1 = d.a1)) ∧
    ((d.a2 > 99 → (restrictDate d).a2 = 0) ∧ (d.a2 < 0 → (restrictDate d).a2 = 99) ∧
      (0 ≤ d.a2 → d.a2 ≤ 99 → (restrictDate d).a2 = d.a2)) ∧
    ((a.hours > 23 → (restrictAlarm a).hours = 0) ∧
      (a.hours < 0 → (restrictAlarm a).hours = 23) ∧
      (0 ≤ a.hours → a.hours ≤ 23 → (restrictAlarm a).hours = a.hours)) ∧
    ((a.minutes > 59 → (restrictAlarm a).minutes = 0) ∧
      (a.minutes < 0 → (restrictAlarm a).minutes = 59) ∧
      (0 ≤ a.minutes → a.minutes ≤ 59 → (restrictAlarm a).minutes = a.minutes)) := by
  simp only [restrictTime_a0, restrictTime_a1, restrictTime_a2, restrictDate_a0,
    restrictDate_a1, restrictDate_a2, restrictAlarm_hours, restrictAlarm_minutes]
  refine ⟨⟨?_, ?_, ?_⟩, ⟨?_, ?_, ?_⟩, ⟨?_, ?_, ?_⟩, ⟨?_, ?_, ?_⟩, ⟨?_, ?_, ?_⟩,
    ⟨?_, ?_, ?_⟩, ⟨?_, ?_, ?_⟩, ⟨?_, ?_, ?_⟩⟩ <;> intros <;> split_ifs <;> omega

/-- Witness for C3: hour 24 wraps to 0, minute -1 wraps to 59, second 7 is
kept; day 32 wraps to 1, month 0 wraps to 12, year 50 is kept; alarm hour -1
wraps to 23 and alarm minute 60 wraps to 0. -/
theorem restrict_wrap_spec_witness :
    (restrictTime ⟨24, -1, 7⟩).a0 = 0 ∧ (restrictTime ⟨24, -1, 7⟩).a1 = 59 ∧
    (restrictTime ⟨24, -1, 7⟩).a2 = 7 ∧ (restrictDate ⟨32, 0, 50⟩).a0 = 1 ∧
    (restrictDate ⟨32, 0, 50⟩).a1 = 12 ∧ (restrictDate ⟨32, 0, 50⟩).a2 = 50 ∧
    (restrictAlarm ⟨-1, 60⟩).hours = 23 ∧ (restrictAlarm ⟨-1, 60⟩).minutes = 0 := by
  obtain ⟨c1, c2, c3, c4, c5, c6, c7, c8⟩ :=
    restrict_wrap_spec ⟨24, -1, 7⟩ ⟨32, 0, 50⟩ ⟨-1, 60⟩
  exact ⟨c1.1 (by decide), c2.2.1 (by decide), c3.2.2 (by decide) (by decide),
    c4.1 (by decide), c5.2.1 (by decide), c6.2.2 (by decide) (by decide),
    c7.2.1 (by decide), c8.1 (by decide)⟩

/-! ### Alarm Scheduler trigger condition (`handleAlarms`) -/

/-- The per-alarm trigger condition of `handleAlarms`:
`enabled && time[hours] == alTime[hours] && time[minutes] == alTime[minutes]
&& time[seconds] == 0`. -/
def alarmTriggered (enabled : Bool) (alTime : AlarmTime) (time : Arr3) : Bool :=
  enabled && time.a0 == alTime.hours && time.a1 == alTime.minutes && time.a2 == 0

/-- C2: for each alarm the trigger condition holds iff the alarm is enabled,
the current hours and minutes equal the alarm's, and the current seconds are
0; hence for a fixed enabled alarm the condition holds at exactly the
second-0 tick of the matching minute and at no other current time. -/
theorem alarm_trigger_iff (e : Bool) (al : AlarmTime) (t : Arr3) :
    (alarmTriggered e al t = true ↔
      (e = true ∧ t.a0 = al.hours ∧ t.a1 = al.minutes ∧ t.a2 = 0)) ∧
    (∀ s : Int, alarmTriggered true al ⟨al.hours, al.minutes, s⟩ = true ↔ s = 0) := by
  constructor
  · simp [alarmTriggered, and_assoc]
  · intro s
    simp [alarmTriggered]

/-- Witness for C2: alarm 1 enabled at 07:30 triggers at 07:30:00 and not at
07:30:01 or 07:29:59. -/
theorem alarm_trigger_iff_witness :
    alarmTriggered true ⟨7, 30⟩ ⟨7, 30, 0⟩ = true ∧
    alarmTriggered true ⟨7, 30⟩ ⟨7, 30, 1⟩ = false ∧
    alarmTriggered true ⟨7, 30⟩ ⟨7, 29, 59⟩ = false := by
  refine ⟨((alarm_trigger_iff true ⟨7, 30⟩ ⟨7, 30, 0⟩).1).mpr ⟨rfl, rfl, rfl, rfl⟩,
    by decide, by decide⟩

/-! ### Time-Update Handler cathode-cleaning condition (`updateTime`) -/

/-- The cathode-cleaning flag computed by `updateTime` right after the RTC
read: `cathodeClean = (time[minutes] % 20) == 0 && time[seconds] < 3 && mode
!= MODE_SET`, evaluated on the just-decoded (non-negative) time values. -/
def updateTimeFlag (regs : List Nat) (mode : Int) : Bool :=
  let t := readDateTime regs
  (t.minutes % 20 == 0) && (t.seconds < 3) && !(mode == MODE_SET)

/-- C4: after the Time-Update Handler runs, the cathode-cleaning flag is set
iff the just-read minutes are divisible by 20, the just-read seconds are in
{0, 1, 2}, and the mode is not Set; in particular it is false whenever the
just-read seconds equal 3. -/
theorem cathode_clean_window_iff (regs : List Nat) (mode : Int) :
    (updateTimeFlag regs mode = true ↔
      ((readDateTime regs).minutes % 20 = 0 ∧
       ((readDateTime regs).seconds = 0 ∨ (readDateTime regs).seconds = 1 ∨
        (readDateTime regs).seconds = 2) ∧
       mode ≠ MODE_SET)) ∧
    ((readDateTime regs).seconds = 3 → updateTimeFlag regs mode = false) := by
  constructor
  · simp only [updateTimeFlag, Bool.and_eq_true, beq_iff_eq, decide_eq_true_eq,
      Bool.not_eq_eq_eq_not, Bool.not_true, beq_eq_false_iff_ne, ne_eq, and_assoc]
    constructor
    · rintro ⟨h1, h2, h3⟩
      exact ⟨h1, by omega, h3⟩
    · rintro ⟨h1, h2, h3⟩
      exact ⟨h1, by omega, h3⟩
  · intro h3
    simp only [updateTimeFlag, h3]
    simp

/-- Witness for C4: with the RTC block encoding 12:40:03 (minutes divisible
by 20 but seconds equal to 3) and mode DisplayTime, the flag is false. -/
theorem cathode_clean_window_iff_witness :
    updateTimeFlag (encodeBlock ⟨3, 40, 12, 1, 1, 0⟩) MODE_DISPLAY_TIME = false :=
  (cathode_clean_window_iff (encodeBlock ⟨3, 40, 12, 1, 1, 0⟩) MODE_DISPLAY_TIME).2
    (by decide)

/-! ### Persistent Alarm Store (`saveAlarmSettings`, `loadAlarmSettings`)

EEPROM holds the raw `alarmSettings_t` block, so the store content is
modelled as an `AlarmSettingsT` value. -/

/-- The `alarmSettings_t` struct:
`{al1Enabled, al2Enabled, al1Time[2], al2Time[2]}`. -/
structure AlarmSettingsT where
  al1Enabled : Bool
  al2Enabled : Bool
  al1Time : AlarmTime
  al2Time : AlarmTime
deriving DecidableEq, Repr

/-- `saveAlarmSettings`: writes the struct verbatim to the EEPROM block. -/
def saveAlarmSettings (s : AlarmSettingsT) : AlarmSettingsT := s

/-- `loadAlarmSettings`: reads the EEPROM block verbatim, then clamps both
alarm times with `restrictAlarm` (the indicator-light writes are erased). -/
def loadAlarmSettings (store : AlarmSettingsT) : AlarmSettingsT :=
  { store with al1Time := restrictAlarm store.al1Time
               al2Time := restrictAlarm store.al2Time }

/-- An alarm time with hours 0-23 and minutes 0-59. -/
def validAlarmTime (a : AlarmTime) : Prop :=
  0 ≤ a.hours ∧ a.hours ≤ 23 ∧ 0 ≤ a.minutes ∧ a.minutes ≤ 59

instance (a : AlarmTime) : Decidable (validAlarmTime a) := by
  unfold validAlarmTime
  infer_instance

/-- Both alarm times of a settings value are in range. -/
def validSettings (s : AlarmSettingsT) : Prop :=
  validAlarmTime s.al1Time ∧ validAlarmTime s.al2Time

instance (s : AlarmSettingsT) : Decidable (validSettings s) := by
  unfold validSettings
  infer_instance

lemma restrictAlarm_of_valid (a : AlarmTime) (h : validAlarmTime a) :
    restrictAlarm a = a := by
  obtain ⟨ah, am⟩ := a
  obtain ⟨h1, h2, h3, h4⟩ := h
  simp only [restrictAlarm]
  split_ifs <;> simp_all <;> omega

lemma restrictAlarm_valid (a : AlarmTime) : validAlarmTime (restrictAlarm a) := by
  refine ⟨?_, ?_, ?_, ?_⟩ <;>
    simp only [restrictAlarm_hours, restrictAlarm_minutes] <;> split_ifs <;> omega

/-- C5: persistence round-trip: for every `AlarmSettings` value whose alarm
times have hours in 0-23 and minutes in 0-59, `saveAlarmSettings` followed by
`loadAlarmSettings` yields the saved structure unchanged (the post-load clamp
is the identity on in-range times). -/
theorem alarm_settings_roundtrip (s : AlarmSettingsT)
    (h1 : validAlarmTime s.al1Time) (h2 : validAlarmTime s.al2Time) :
    loadAlarmSettings (saveAlarmSettings s) = s := by
  obtain ⟨e1, e2, a1, a2⟩ := s
  simp only [saveAlarmSettings, loadAlarmSettings]
  rw [restrictAlarm_of_valid _ h1, restrictAlarm_of_valid _ h2]

/-- Witness for C5: saving `{al1Enabled = true, al1Time = {6, 45},
al2Enabled = false, al2Time = {0, 0}}` then loading yields it back. -/
theorem alarm_settings_roundtrip_witness :
    loadAlarmSettings (saveAlarmSettings ⟨true, false, ⟨6, 45⟩, ⟨0, 0⟩⟩) =
      ⟨true, false, ⟨6, 45⟩, ⟨0, 0⟩⟩ :=
  alarm_settings_roundtrip ⟨true, false, ⟨6, 45⟩, ⟨0, 0⟩⟩ (by decide) (by decide)

/-! ### Alarm mutation flows (`enableAlarm`, `disableAlarm`, `setAlarm`) and
the reachable-state invariant -/

/-- One poll of the up/down buttons inside an edit loop. -/
inductive EditPress
  | up
  | down
  | idle
deriving DecidableEq, Repr

/-- `toAdd`: +1 for the up button, -1 for the down button, 0 otherwise. -/
def pressToAdd : EditPress → Int
  | .up => 1
  | .down => -1
  | .idle => 0

/-- One iteration of the `setAlarm` inner edit loop on field `i`
(0 = hours, 1 = minutes): `newAlarm[i] += toAdd; restrictAlarm(newAlarm)`. -/
def alarmEditStep (i : Nat) (a : AlarmTime) (p : EditPress) : AlarmTime :=
  restrictAlarm (if i = 0 then { a with hours := a.hours + pressToAdd p }
    else { a with minutes := a.minutes + pressToAdd p })

/-- The value of `newAlarm` at the end of `setAlarm`, after the field-0 edit
session `s0` and the field-1 edit session `s1`. -/
def setAlarmCompute (init : AlarmTime) (s0 s1 : List EditPress) : AlarmTime :=
  s1.foldl (alarmEditStep 1) (s0.foldl (alarmEditStep 0) init)

/-- `setAlarm(alarm)`: edits the chosen alarm time starting from its current
value, commits it, and marks that alarm enabled. -/
def setAlarm (alarm : Nat) (s0 s1 : List EditPress) (s : AlarmSettingsT) :
    AlarmSettingsT :=
  if alarm = 1 then
    { s with al1Time := setAlarmCompute s.al1Time s0 s1, al1Enabled := true }
  else
    { s with al2Time := setAlarmCompute s.al2Time s0 s1, al2Enabled := true }

/-- `enableAlarm(alarm)`: marks the chosen alarm enabled (the preview render
and save are erased; the times are untouched). -/
def enableAlarm (alarm : Nat) (s : AlarmSettingsT) : AlarmSettingsT :=
  if alarm = 1 then { s with al1Enabled := true } else { s with al2Enabled := true }

/-- `disableAlarm(alarm)`: marks the chosen alarm disabled. -/
def disableAlarm (alarm : Nat) (s : AlarmSettingsT) : AlarmSettingsT :=
  if alarm = 1 then { s with al1Enabled := false } else { s with al2Enabled := false }

/-- The `alarmSettings` states reachable by the firmware: the boot-time load
from an arbitrary EEPROM block, followed by any sequence of the mutating
flows `setAlarm`, `enableAlarm`, `disableAlarm`. -/
inductive ReachableAlarm : AlarmSettingsT → Prop
  | boot (store : AlarmSettingsT) : ReachableAlarm (loadAlarmSettings store)
  | set (alarm : Nat) (s0 s1 : List EditPress) (s : AlarmSettingsT)
      (h : ReachableAlarm s) : ReachableAlarm (setAlarm alarm s0 s1 s)
  | enable (alarm : Nat) (s : AlarmSettingsT) (h : ReachableAlarm s) :
      ReachableAlarm (enableAlarm alarm s)
  | disable (alarm : Nat) (s : AlarmSettingsT) (h : ReachableAlarm s) :
      ReachableAlarm (disableAlarm alarm s)

lemma setAlarmCompute_valid (init : AlarmTime) (s0 s1 : List EditPress)
    (h : validAlarmTime init) : validAlarmTime (setAlarmCompute init s0 s1) := by
  have step : ∀ (i : Nat) (steps : List EditPress) (a : AlarmTime),
      validAlarmTime a → validAlarmTime (steps.foldl (alarmEditStep i) a) := by
    intro i steps
    induction steps with
    | nil => intro a ha; exact ha
    | cons p rest ih =>
        intro a ha
        exact ih _ (restrictAlarm_valid _)
  exact step 1 s1 _ (step 0 s0 init h)

/-- C6: invariant on `alarmSettings`: after the boot-time load and after every
mutating flow (`setAlarm`, `enableAlarm`, `disableAlarm`, load from storage),
both alarm times satisfy hours in 0-23 and minutes in 0-59 — every write of
an alarm time goes through `restrictAlarm` first, so no reachable state holds
an out-of-range alarm time. -/
theorem alarm_settings_invariant (s : AlarmSettingsT) (h : ReachableAlarm s) :
    validSettings s := by
  induction h with
  | boot store =>
      exact ⟨restrictAlarm_valid _, restrictAlarm_valid _⟩
  | set alarm s0 s1 s _ ih =>
      unfold setAlarm
      split_ifs
      · exact ⟨setAlarmCompute_valid _ s0 s1 ih.1, ih.2⟩
      · exact ⟨ih.1, setAlarmCompute_valid _ s0 s1 ih.2⟩
  | enable alarm s _ ih =>
      unfold enableAlarm
      split_ifs
      · exact ⟨ih.1, ih.2⟩
      · exact ⟨ih.1, ih.2⟩
  | disable alarm s _ ih =>
      unfold disableAlarm
      split_ifs
      · exact ⟨ih.1, ih.2⟩
      · exact ⟨ih.1, ih.2⟩

/-- Witness for C6: the state loaded at boot from a corrupted EEPROM block
(alarm 1 time 99:99) satisfies the invariant. -/
theorem alarm_settings_invariant_witness :
    validSettings (loadAlarmSettings ⟨true, true, ⟨99, 99⟩, ⟨0, 0⟩⟩) :=
  alarm_settings_invariant _ (ReachableAlarm.boot ⟨true, true, ⟨99, 99⟩, ⟨0, 0⟩⟩)

/-! ### Brightness Controller (`updateBrightness`) -/

/-- The Arduino `map` macro: `(x - in_min) * (out_max - out_min) /
(in_max - in_min) + out_min`, with C integer division. -/
def arduinoMap (x inMin inMax outMin outMax : Int) : Int :=
  Int.tdiv ((x - inMin) * (outMax - outMin)) (inMax - inMin) + outMin

/-- The Arduino `constrain` macro. -/
def constrain (x lo hi : Int) : Int :=
  if x < lo then lo else if x > hi then hi else x

/-- The sensor-derived brightness target of `updateBrightness`: the averaged
light reading mapped linearly from the `ldrDark`/`ldrBright` calibration pair
onto `minBrightness`-`maxBrightness` (50-100) and constrained to that range. -/
def brightnessTarget (reading : Int) : Int :=
  constrain (arduinoMap reading ldrDark ldrBright minBrightness maxBrightness)
    minBrightness maxBrightness

/-- `updateBrightness`: maps and constrains the reading, then rate-limits the
stored percent `lastBrightness` by one point per call; returns the new stored
percent (the exponential PWM conversion and the analog write are erased). -/
def updateBrightness (reading lastBrightness : Int) : Int :=
  let brightness := arduinoMap reading ldrDark ldrBright minBrightness maxBrightness
  let brightnessPercent := constrain brightness minBrightness maxBrightness
  let brightnessPercent :=
    if brightnessPercent > lastBrightness then lastBrightness + 1
    else if brightnessPercent < lastBrightness then lastBrightness - 1
    else brightnessPercent
  brightnessPercent

/-- C7: on every brightness update the stored percent moves by at most 1
toward the sensor-derived target (the reading mapped linearly from the
dark/bright calibration pair onto 50-100 and clamped to that range): one step
up when the target is above the stored percent, one step down when below,
unchanged when equal — and the target always lies in 50-100. -/
theorem brightness_update_spec (reading lastB : Int) :
    (updateBrightness reading lastB - lastB ≤ 1 ∧
      lastB - updateBrightness reading lastB ≤ 1) ∧
    (brightnessTarget reading > lastB → updateBrightness reading lastB = lastB + 1) ∧
    (brightnessTarget reading < lastB → updateBrightness reading lastB = lastB - 1) ∧
    (brightnessTarget reading = lastB → updateBrightness reading lastB = lastB) ∧
    minBrightness ≤ brightnessTarget reading ∧
    brightnessTarget reading ≤ maxBrightness := by
  simp only [updateBrightness, brightnessTarget, constrain, minBrightness,
    maxBrightness]
  split_ifs <;> omega

/-- Witness for C7: at the full-bright calibration reading 830 the target is
100; with stored percent 50 one call yields exactly 51. -/
theorem brightness_update_spec_witness :
    updateBrightness 830 50 = 50 + 1 :=
  (brightness_update_spec 830 50).2.1 (by decide)

/-! ### Display Renderer (`displayTime`, `numbers`, `blank`) -/

/-- The 10-bit cathode patterns for digits 0-9 (`numbers[10]`); all bits high
except the one for the lit digit. -/
def numbers : List Nat :=
  [0b1111111110, 0b0111111111, 0b1011111111, 0b1101111111, 0b1110111111,
   0b1111011111, 0b1111101111, 0b1111110111, 0b1111111011, 0b1111111101]

/-- The all-high blank pattern. -/
def blank : Nat := 0b1111111111

/-- C array indexing into `numbers[10]`: defined for indices 0-9, undefined
behaviour (`none`) outside. -/
def numAt (k : Int) : Option Nat :=
  if 0 ≤ k ∧ k < 10 then some (numbers.getD k.toNat 0) else none

/-- The two frames `displayTime` shifts out for one field: two blanks when the
value exceeds 99, else the units-digit frame (`numbers[v % 10]`) followed by
the tens-digit frame (`numbers[v / 10]`), with C truncating division. -/
def fieldFrames (v : Int) : List (Option Nat) :=
  if v > 99 then [some blank, some blank]
  else [numAt (Int.tmod v 10), numAt (Int.tdiv v 10)]

/-- Events on the display serial bus. -/
inductive DisplayEvent
  | frame (f : Option Nat)
  | strobeHigh
  | strobeLow
deriving DecidableEq, Repr

/-- `displayTime`: shifts out the two frames of field 2, then field 1, then
field 0 (`for(int i = 2; i >= 0; i--)`), then pulses the strobe line high and
low. -/
def displayTime (t : Arr3) : List DisplayEvent :=
  ((fieldFrames t.a2 ++ fieldFrames t.a1 ++ fieldFrames t.a0).map DisplayEvent.frame)
    ++ [DisplayEvent.strobeHigh, DisplayEvent.strobeLow]

/-- The digit-pattern frame for digit `d`, as the spec describes it. -/
def digitFrame (d : Nat) : Nat := numbers.getD d 0

/-- The frame pair the spec prescribes for one field: two blanks above 99,
else the units-digit pattern then the tens-digit pattern. -/
def fieldFramesSpec (v : Int) : List (Option Nat) :=
  if v > 99 then [some blank, some blank]
  else [some (digitFrame (Int.tmod v 10).toNat), some (digitFrame (Int.tdiv v 10).toNat)]

/-- The full event stream the spec prescribes: fields from index 2 down to
index 0, then a strobe pulse. -/
def displayTimeSpec (t : Arr3) : List DisplayEvent :=
  ((fieldFramesSpec t.a2 ++ fieldFramesSpec t.a1 ++ fieldFramesSpec t.a0).map
    DisplayEvent.frame) ++ [DisplayEvent.strobeHigh, DisplayEvent.strobeLow]

lemma fieldFrames_eq_spec (v : Int) (hv : 0 ≤ v) : fieldFrames v = fieldFramesSpec v := by
  unfold fieldFrames fieldFramesSpec
  split_ifs with h99
  · rfl
  · have hm0 : 0 ≤ Int.tmod v 10 := Int.tmod_nonneg 10 hv
    have hm : Int.tmod v 10 < 10 := Int.tmod_lt_of_pos v (by omega)
    have hd0 : 0 ≤ Int.tdiv v 10 := Int.tdiv_nonneg hv (by omega)
    have hd : Int.tdiv v 10 < 10 := by
      have := Int.tmod_add_tdiv v 10
      omega
    simp only [numAt, digitFrame, if_pos (And.intro hm0 hm), if_pos (And.intro hd0 hd)]

/-- C8: for every 3-field input with non-negative fields, `displayTime` emits
exactly the spec stream: fields from index 2 down to index 0, two all-high
blank frames for a field above 99, otherwise the units-digit frame
(`numbers[v % 10]`) followed by the tens-digit frame (`numbers[v / 10]`),
and after all six frames a strobe pulse high then low. -/
theorem display_instant_frames (t : Arr3) (h0 : 0 ≤ t.a0) (h1 : 0 ≤ t.a1)
    (h2 : 0 ≤ t.a2) : displayTime t = displayTimeSpec t := by
  unfold displayTime displayTimeSpec
  rw [fieldFrames_eq_spec t.a0 h0, fieldFrames_eq_spec t.a1 h1,
    fieldFrames_eq_spec t.a2 h2]

/-- Witness for C8: the stream for the triple {12, 34, 100} — field 2 blanked,
fields 1 and 0 as digit pairs, strobe last. -/
theorem display_instant_frames_witness :
    displayTime ⟨12, 34, 100⟩ = displayTimeSpec ⟨12, 34, 100⟩ ∧
    displayTimeSpec ⟨12, 34, 100⟩ =
      [DisplayEvent.frame (some blank), DisplayEvent.frame (some blank),
       DisplayEvent.frame (some (digitFrame 4)), DisplayEvent.frame (some (digitFrame 3)),
       DisplayEvent.frame (some (digitFrame 2)), DisplayEvent.frame (some (digitFrame 1)),
       DisplayEvent.strobeHigh, DisplayEvent.strobeLow] :=
  ⟨display_instant_frames ⟨12, 34, 100⟩ (by decide) (by decide) (by decide), by decide⟩

/-- The `numbers` indices `displayTime` computes for one field: none when the
value takes the blank branch, else `v % 10` and `v / 10` (C semantics). -/
def fieldIndices (v : Int) : List Int :=
  if v > 99 then [] else [Int.tmod v 10, Int.tdiv v 10]

/-- All `numbers` indices `displayTime` computes for a 3-field input. -/
def displayIndices (t : Arr3) : List Int :=
  fieldIndices t.a2 ++ fieldIndices t.a1 ++ fieldIndices t.a0

lemma fieldIndices_bounded (v : Int) (hv : 0 ≤ v) :
    ∀ k ∈ fieldIndices v, 0 ≤ k ∧ k < 10 := by
  intro k hk
  unfold fieldIndices at hk
  split_ifs at hk with h99
  · simp at hk
  · have hm0 : 0 ≤ Int.tmod v 10 := Int.tmod_nonneg 10 hv
    have hm : Int.tmod v 10 < 10 := Int.tmod_lt_of_pos v (by omega)
    have hd0 : 0 ≤ Int.tdiv v 10 := Int.tdiv_nonneg hv (by omega)
    have hd : Int.tdiv v 10 < 10 := by
      have := Int.tmod_add_tdiv v 10
      omega
    simp only [List.mem_cons, List.mem_singleton, List.not_mem_nil, or_false] at hk
    rcases hk with rfl | rfl
    · exact ⟨hm0, hm⟩
    · exact ⟨hd0, hd⟩

/-- C10: for every 3-field input with non-negative fields, every index
`displayTime` computes into the 10-entry `numbers` table lies in 0-9 (fields
above 99 take the blank branch and compute no index; fields 0-99 index with
`v % 10` and `v / 10`, both in 0-9); and non-negativity is necessary: a
negative field takes the digit branch and computes a negative, out-of-bounds
index. -/
theorem display_indices_safe (t : Arr3) (h0 : 0 ≤ t.a0) (h1 : 0 ≤ t.a1)
    (h2 : 0 ≤ t.a2) :
    (∀ k ∈ displayIndices t, 0 ≤ k ∧ k < 10) ∧
    (∀ v : Int, v < 0 → fieldIndices v ≠ [] ∧ ∃ k ∈ fieldIndices v, k < 0) := by
  constructor
  · intro k hk
    unfold displayIndices at hk
    rcases List.mem_append.mp hk with hk | hk
    · rcases List.mem_append.mp hk with hk | hk
      · exact fieldIndices_bounded t.a2 h2 k hk
      · exact fieldIndices_bounded t.a1 h1 k hk
    · exact fieldIndices_bounded t.a0 h0 k hk
  · intro v hv
    have hne : ¬ v > 99 := by omega
    have hsum := Int.tmod_add_tdiv v 10
    constructor
    · simp [fieldIndices, hne]
    · by_cases hmneg : Int.tmod v 10 < 0
      · exact ⟨Int.tmod v 10, by simp [fieldIndices, hne], hmneg⟩
      · refine ⟨Int.tdiv v 10, by simp [fieldIndices, hne], by omega⟩

/-- Witness for C10: every index computed for the triple {7, 45, 100} is a
valid digit index, and the negative field value -5 computes index -5. -/
theorem display_indices_safe_witness :
    (∀ k ∈ displayIndices ⟨7, 45, 100⟩, 0 ≤ k ∧ k < 10) ∧
    fieldIndices (-5) ≠ [] := by
  refine ⟨(display_indices_safe ⟨7, 45, 100⟩ (by decide) (by decide) (by decide)).1,
    ((display_indices_safe ⟨0, 0, 0⟩ (by decide) (by decide) (by decide)).2 (-5)
      (by decide)).1⟩

/-! ### Mode render policy (`updateDisplay`) -/

/-- A render request issued by `updateDisplay`. -/
inductive RenderAction
  | instant (v : Arr3)
  | fade (target source : Arr3)
deriving DecidableEq, Repr

/-- `updateDisplay`: dispatches on `mode`.  `MODE_DISPLAY_TIME` cross-fades
from `prevTime` to `time` with the decimal point low.  In
`MODE_DISPLAY_DATETIME`, when `(time[seconds] / switchInterval) % 2 == 0` the
time is shown — instantly when `(float) time[seconds] / switchInterval ==
0.0` (an exact float test that holds precisely when the seconds are 0, since
a nonzero integer divided by 5 is a nonzero float), else by cross-fade — with
the decimal point low; otherwise the date is shown instantly with the decimal
point at `!(time[seconds] % 2)`.  The `switch` has no `MODE_SET` case, so
nothing is rendered there.  The returned pair is the render request and the
decimal-point level. -/
def updateDisplay (mode : Int) (time prevTime date : Arr3) :
    Option (RenderAction × Bool) :=
  if mode = MODE_DISPLAY_TIME then
    some (RenderAction.fade time prevTime, false)
  else if mode = MODE_DISPLAY_DATETIME then
    if Int.tmod (Int.tdiv time.a2 switchInterval) 2 = 0 then
      if time.a2 = 0 then some (RenderAction.instant time, false)
      else some (RenderAction.fade time prevTime, false)
    else
      some (RenderAction.instant date, Int.tmod time.a2 2 == 0)
  else none

/-- Counterexample to C9: second 10 begins a new time phase
((10 / 5) % 2 = 0 and 10 % 5 = 0, while second 9 lay in a date phase), yet
`updateDisplay` cross-fades there instead of rendering instantly — the
instant render happens only at second 0. -/
theorem datetime_boundary_counterexample :
    Int.tmod (Int.tdiv 10 switchInterval) 2 = 0 ∧
    Int.tmod (10 : Int) switchInterval = 0 ∧
    Int.tmod (Int.tdiv 9 switchInterval) 2 ≠ 0 ∧
    updateDisplay MODE_DISPLAY_DATETIME ⟨7, 3, 10⟩ ⟨7, 3, 9⟩ ⟨1, 1, 0⟩ =
      some (RenderAction.fade ⟨7, 3, 10⟩ ⟨7, 3, 9⟩, false) ∧
    (∀ v : Arr3, ∀ b : Bool,
      updateDisplay MODE_DISPLAY_DATETIME ⟨7, 3, 10⟩ ⟨7, 3, 9⟩ ⟨1, 1, 0⟩ ≠
        some (RenderAction.instant v, b)) := by
  refine ⟨by decide, by decide, by decide, by decide, ?_⟩
  intro v b h
  have heq : updateDisplay MODE_DISPLAY_DATETIME ⟨7, 3, 10⟩ ⟨7, 3, 9⟩ ⟨1, 1, 0⟩ =
      some (RenderAction.fade ⟨7, 3, 10⟩ ⟨7, 3, 9⟩, false) := by decide
  rw [heq] at h
  simp at h

/-- C9 as amended: in DisplayDateTime mode a tick with
`(seconds / 5) % 2 == 0` is a time phase and otherwise a date phase; in the
time phase the render is instant exactly at seconds 0 (not at every
phase-boundary second) and a cross-fade from previous to current time at
every other time-phase second, with the decimal point off; in the date phase
the date is rendered instantly with the decimal point on exactly at even
seconds (toggling once per second). -/
theorem datetime_render_spec (time prevTime date : Arr3) :
    (Int.tmod (Int.tdiv time.a2 switchInterval) 2 = 0 → time.a2 = 0 →
      updateDisplay MODE_DISPLAY_DATETIME time prevTime date =
        some (RenderAction.instant time, false)) ∧
    (Int.tmod (Int.tdiv time.a2 switchInterval) 2 = 0 → time.a2 ≠ 0 →
      updateDisplay MODE_DISPLAY_DATETIME time prevTime date =
        some (RenderAction.fade time prevTime, false)) ∧
    (Int.tmod (Int.tdiv time.a2 switchInterval) 2 ≠ 0 →
      updateDisplay MODE_DISPLAY_DATETIME time prevTime date =
        some (RenderAction.instant date, Int.tmod time.a2 2 == 0)) := by
  have hne : MODE_DISPLAY_DATETIME ≠ MODE_DISPLAY_TIME := by decide
  refine ⟨?_, ?_, ?_⟩
  · intro hp h0
    simp only [updateDisplay, if_neg hne, if_pos rfl, if_pos hp, if_pos h0, if_true]
  · intro hp h0
    simp only [updateDisplay, if_neg hne, if_pos rfl, if_pos hp, if_neg h0, if_true]
  · intro hp
    simp only [updateDisplay, if_neg hne, if_pos rfl, if_neg hp, if_true]

/-- Witness for C9 as amended: at 00:00:00 the time phase renders instantly;
at second 7 the date phase renders the date with the decimal point off. -/
theorem datetime_render_spec_witness :
    updateDisplay MODE_DISPLAY_DATETIME ⟨0, 0, 0⟩ ⟨23, 59, 59⟩ ⟨1, 1, 0⟩ =
      some (RenderAction.instant ⟨0, 0, 0⟩, false) ∧
    updateDisplay MODE_DISPLAY_DATETIME ⟨0, 0, 7⟩ ⟨0, 0, 6⟩ ⟨1, 1, 0⟩ =
      some (RenderAction.instant ⟨1, 1, 0⟩, false) := by
  have h1 := (datetime_render_spec ⟨0, 0, 0⟩ ⟨23, 59, 59⟩ ⟨1, 1, 0⟩).1
    (by decide) (by decide)
  have h2 := (datetime_render_spec ⟨0, 0, 7⟩ ⟨0, 0, 6⟩ ⟨1, 1, 0⟩).2.2 (by decide)
  exact ⟨h1, h2.trans (by decide)⟩

end NixieClock
